import Mathlib

/-!
# AssociatedObjects: the bidirectional source/destination index

Shallow embedding of `pkg/controller/issuer/core/associatedObjects.go`.

* A Go `map[K]V` is a finite map `Finmap`: indexing is `Finmap.lookup` (the
  zero value `nil` of a missing key is `none`), assignment is `Finmap.insert`,
  `delete` is `Finmap.erase`. Two maps are equal when they hold the same
  key/value pairs.
* `resources.ObjectName` is an interface type of an external library. It is a
  type parameter with decidable equality and a test `HasNil.isNil` for its nil
  value. Indexing a map at a missing key also reads as nil, so `src != nil`
  holds exactly when the key is present and the stored value is not nil.
* `resources.ObjectNameSet` is a Go map used as a set: a `Finset`.
* A slice filled by ranging over a Go map has no specified order: it is a
  `Multiset`.
* The mutex is not part of the sequential model: every operation is a function
  from the state before the call to the state after it.
-/

namespace core

/-- Modelled from the spec: the destination-set container
`resources.ObjectNameSet` of the external resources library, a mutable set of
identities; here a finite set. -/
abbrev ObjectNameSet (ObjectName : Type) : Type := Finset ObjectName

/-- Modelled from the spec: `ObjectNameSet.Add`, add a member. -/
def ObjectNameSet.Add {ObjectName : Type} [DecidableEq ObjectName]
    (set : ObjectNameSet ObjectName) (name : ObjectName) : ObjectNameSet ObjectName :=
  insert name set

/-- Modelled from the spec: `ObjectNameSet.Remove`, remove a member. -/
def ObjectNameSet.Remove {ObjectName : Type} [DecidableEq ObjectName]
    (set : ObjectNameSet ObjectName) (name : ObjectName) : ObjectNameSet ObjectName :=
  Finset.erase set name

/-- Modelled from the spec: `ObjectNameSet.AsArray`, the members as a sequence
in no particular order. -/
def ObjectNameSet.AsArray {ObjectName : Type}
    (set : ObjectNameSet ObjectName) : Multiset ObjectName :=
  set.val

/-- The struct `AssociatedObjects`: the two maps (the lock is left out). -/
structure AssociatedObjects (ObjectName : Type) where
  srcToDest : Finmap (fun _ : ObjectName => ObjectNameSet ObjectName)
  destToSrc : Finmap (fun _ : ObjectName => ObjectName)

/-- The interface type `resources.ObjectName` is declared in the external
resources library. It is taken as a parameter: a type with decidable equality
together with `isNil`, the test that tells the nil interface value from the
names. -/
class HasNil (ObjectName : Type) where
  isNil : ObjectName → Bool

/-- Plain strings used as names: every string is a name, none is nil. -/
instance stringHasNil : HasNil String :=
  ⟨fun _ => false⟩

/-- An interface value that is either nil (`none`) or holds a name. -/
instance optionHasNil {Name : Type} : HasNil (Option Name) :=
  ⟨Option.isNone⟩

/-- Deleting two keys from a map in either order gives the same map; this is
what makes the result of the `range` loop of `RemoveBySource` independent of the
iteration order. -/
instance eraseRightCommutative {ObjectName : Type} [DecidableEq ObjectName] :
    RightCommutative
      (fun (m : Finmap (fun _ : ObjectName => ObjectName)) (dst : ObjectName) => m.erase dst) :=
  ⟨fun _ _ _ => Finmap.erase_erase⟩

section Operations

variable {ObjectName : Type} [DecidableEq ObjectName]

/-- The constructor `NewAssociatedObjects`: both maps empty. -/
def NewAssociatedObjects : AssociatedObjects ObjectName :=
  { srcToDest := ∅, destToSrc := ∅ }

/-- The method `AddAssoc`: fetch the set of `src` (storing a fresh empty one when there is
none), add `dst` to that stored set, and set `destToSrc[dst] = src`. -/
def AssociatedObjects.AddAssoc (ao : AssociatedObjects ObjectName) (src dst : ObjectName) :
    AssociatedObjects ObjectName :=
  let fetched : ObjectNameSet ObjectName × Finmap (fun _ : ObjectName => ObjectNameSet ObjectName) :=
    match ao.srcToDest.lookup src with
    | some set => (set, ao.srcToDest)
    | none => (∅, ao.srcToDest.insert src ∅)
  { srcToDest := fetched.2.insert src (fetched.1.Add dst)
    destToSrc := ao.destToSrc.insert dst src }

/-- The method `RemoveByDest`: read `src := destToSrc[dst]`; when `src != nil`,
that is when the key is present and the stored source is not nil, remove `dst`
from the set stored under that source (deleting the source key when the set
becomes empty) and delete `destToSrc[dst]`; otherwise do nothing. -/
def AssociatedObjects.RemoveByDest [HasNil ObjectName] (ao : AssociatedObjects ObjectName)
    (dst : ObjectName) : AssociatedObjects ObjectName :=
  match ao.destToSrc.lookup dst with
  | none => ao
  | some src =>
    if HasNil.isNil src then ao
    else
      { srcToDest :=
          match ao.srcToDest.lookup src with
          | none => ao.srcToDest
          | some set =>
            if (set.Remove dst).card = 0 then ao.srcToDest.erase src
            else ao.srcToDest.insert src (set.Remove dst)
        destToSrc := ao.destToSrc.erase dst }

/-- The method `RemoveBySource`: delete `destToSrc[dst]` for every `dst` in the set stored
under `src` (no iteration when there is none), then delete the key `src`. -/
def AssociatedObjects.RemoveBySource (ao : AssociatedObjects ObjectName) (src : ObjectName) :
    AssociatedObjects ObjectName :=
  { srcToDest := ao.srcToDest.erase src
    destToSrc :=
      match ao.srcToDest.lookup src with
      | none => ao.destToSrc
      | some set => Multiset.foldl (fun m dst => m.erase dst) ao.destToSrc set.val }

/-- The method `DestinationsAsArray`: the members of the set of `src`, the empty (nil)
slice when there is none. -/
def AssociatedObjects.DestinationsAsArray (ao : AssociatedObjects ObjectName) (src : ObjectName) :
    Multiset ObjectName :=
  match ao.srcToDest.lookup src with
  | none => 0
  | some set => set.AsArray

/-- The method `DestinationsCount`: the size of the set of `src`, `0` when there is none. -/
def AssociatedObjects.DestinationsCount (ao : AssociatedObjects ObjectName) (src : ObjectName) :
    Nat :=
  match ao.srcToDest.lookup src with
  | none => 0
  | some set => set.card

/-- The method `Sources`: the keys of `srcToDest`, collected by ranging over the map. -/
def AssociatedObjects.Sources (ao : AssociatedObjects ObjectName) : Multiset ObjectName :=
  ao.srcToDest.keys.val

/-- One mutating call of the public interface. -/
inductive Call (ObjectName : Type) where
  | AddAssoc (src dst : ObjectName)
  | RemoveByDest (dst : ObjectName)
  | RemoveBySource (src : ObjectName)
  deriving DecidableEq

/-- The state after one call. -/
def Call.apply [HasNil ObjectName] (ao : AssociatedObjects ObjectName) : Call ObjectName → AssociatedObjects ObjectName
  | .AddAssoc src dst => ao.AddAssoc src dst
  | .RemoveByDest dst => ao.RemoveByDest dst
  | .RemoveBySource src => ao.RemoveBySource src

/-- The state reached from `ao` by a finite sequence of calls, first call
first. -/
def runFrom [HasNil ObjectName] (ao : AssociatedObjects ObjectName) (calls : List (Call ObjectName)) :
    AssociatedObjects ObjectName :=
  calls.foldl Call.apply ao

/-- The state reached from the index built by `NewAssociatedObjects`. -/
def run [HasNil ObjectName] (calls : List (Call ObjectName)) : AssociatedObjects ObjectName :=
  runFrom NewAssociatedObjects calls

end Operations

/-! ## Lookup characterisations of the three mutating operations -/

section Lookup

variable {ObjectName : Type} [DecidableEq ObjectName]

theorem lookup_foldl_erase (set : Multiset ObjectName)
    (m : Finmap (fun _ : ObjectName => ObjectName)) (d : ObjectName) :
    (Multiset.foldl (fun m dst => m.erase dst) m set).lookup d =
      if d ∈ set then none else m.lookup d := by
  induction set using Multiset.induction_on generalizing m with
  | empty => simp
  | cons a t ih =>
    rw [Multiset.foldl_cons, ih]
    by_cases hda : d = a
    · subst hda
      simp [Finmap.lookup_erase]
    · simp [hda, Finmap.lookup_erase_ne hda]

theorem srcToDest_AddAssoc (ao : AssociatedObjects ObjectName) (src dst s : ObjectName) :
    (ao.AddAssoc src dst).srcToDest.lookup s =
      if s = src then some (insert dst ((ao.srcToDest.lookup src).getD ∅))
      else ao.srcToDest.lookup s := by
  unfold AssociatedObjects.AddAssoc ObjectNameSet.Add
  by_cases hs : s = src
  · subst hs
    simp only [Finmap.lookup_insert, if_true]
    cases ao.srcToDest.lookup s <;> rfl
  · simp only [Finmap.lookup_insert_of_ne _ hs, if_neg hs]
    cases h : ao.srcToDest.lookup src
    · simp only [Finmap.lookup_insert_of_ne _ hs]
    · rfl

theorem destToSrc_AddAssoc (ao : AssociatedObjects ObjectName) (src dst d : ObjectName) :
    (ao.AddAssoc src dst).destToSrc.lookup d =
      if d = dst then some src else ao.destToSrc.lookup d := by
  unfold AssociatedObjects.AddAssoc
  by_cases hd : d = dst
  · subst hd
    simp only [Finmap.lookup_insert, if_true]
  · simp only [Finmap.lookup_insert_of_ne _ hd, if_neg hd]

theorem RemoveByDest_of_none [HasNil ObjectName] (ao : AssociatedObjects ObjectName)
    (dst : ObjectName) (h : ao.destToSrc.lookup dst = none) : ao.RemoveByDest dst = ao := by
  unfold AssociatedObjects.RemoveByDest
  rw [h]

theorem RemoveByDest_of_nil [HasNil ObjectName] (ao : AssociatedObjects ObjectName)
    (dst src : ObjectName) (h : ao.destToSrc.lookup dst = some src)
    (hn : HasNil.isNil src = true) : ao.RemoveByDest dst = ao := by
  unfold AssociatedObjects.RemoveByDest
  rw [h]
  simp only [hn, if_true]

theorem RemoveByDest_cases [HasNil ObjectName] (ao : AssociatedObjects ObjectName)
    (dst : ObjectName) :
    ao.RemoveByDest dst = ao ∨
      ∃ src, ao.destToSrc.lookup dst = some src ∧ HasNil.isNil src = false := by
  cases h : ao.destToSrc.lookup dst with
  | none => exact Or.inl (RemoveByDest_of_none ao dst h)
  | some src =>
    cases hn : HasNil.isNil src with
    | true => exact Or.inl (RemoveByDest_of_nil ao dst src h hn)
    | false => exact Or.inr ⟨src, rfl, hn⟩

theorem destToSrc_RemoveByDest [HasNil ObjectName] (ao : AssociatedObjects ObjectName)
    (dst src d : ObjectName) (h : ao.destToSrc.lookup dst = some src)
    (hn : HasNil.isNil src = false) :
    (ao.RemoveByDest dst).destToSrc.lookup d =
      if d = dst then none else ao.destToSrc.lookup d := by
  unfold AssociatedObjects.RemoveByDest
  rw [h]
  simp only [hn, Bool.false_eq_true, if_false]
  by_cases hd : d = dst
  · subst hd
    simp [Finmap.lookup_erase]
  · simp [hd, Finmap.lookup_erase_ne hd]

theorem destToSrc_none_RemoveByDest [HasNil ObjectName] (ao : AssociatedObjects ObjectName)
    (dst d : ObjectName) (h : ao.destToSrc.lookup d = none) :
    (ao.RemoveByDest dst).destToSrc.lookup d = none := by
  rcases RemoveByDest_cases ao dst with heq | ⟨src, hsrc, hn⟩
  · rw [heq, h]
  · rw [destToSrc_RemoveByDest ao dst src d hsrc hn, h, ite_self]

theorem srcToDest_RemoveByDest [HasNil ObjectName] (ao : AssociatedObjects ObjectName)
    (dst src s : ObjectName) (set : Finset ObjectName)
    (h : ao.destToSrc.lookup dst = some src) (hn : HasNil.isNil src = false)
    (hset : ao.srcToDest.lookup src = some set) :
    (ao.RemoveByDest dst).srcToDest.lookup s =
      if s = src then (if set.erase dst = ∅ then none else some (set.erase dst))
      else ao.srcToDest.lookup s := by
  unfold AssociatedObjects.RemoveByDest ObjectNameSet.Remove
  simp only [h, hn, Bool.false_eq_true, if_false, hset, Finset.card_eq_zero]
  by_cases hs : s = src
  · subst hs
    by_cases he : set.erase dst = ∅
    · simp [he, Finmap.lookup_erase]
    · simp [he, Finmap.lookup_insert]
  · simp only [if_neg hs]
    by_cases he : set.erase dst = ∅
    · simp [he, Finmap.lookup_erase_ne hs]
    · simp [he, Finmap.lookup_insert_of_ne _ hs]

theorem srcToDest_RemoveByDest_of_ne [HasNil ObjectName] (ao : AssociatedObjects ObjectName)
    (dst src s : ObjectName) (h : ao.destToSrc.lookup dst = some src)
    (hn : HasNil.isNil src = false) (hs : s ≠ src) :
    (ao.RemoveByDest dst).srcToDest.lookup s = ao.srcToDest.lookup s := by
  cases hset : ao.srcToDest.lookup src with
  | none =>
    unfold AssociatedObjects.RemoveByDest
    simp only [h, hn, Bool.false_eq_true, if_false, hset]
  | some set => rw [srcToDest_RemoveByDest ao dst src s set h hn hset, if_neg hs]

theorem srcToDest_RemoveBySource (ao : AssociatedObjects ObjectName) (src s : ObjectName) :
    (ao.RemoveBySource src).srcToDest.lookup s =
      if s = src then none else ao.srcToDest.lookup s := by
  unfold AssociatedObjects.RemoveBySource
  by_cases hs : s = src
  · subst hs
    simp [Finmap.lookup_erase]
  · simp [hs, Finmap.lookup_erase_ne hs]

theorem destToSrc_RemoveBySource (ao : AssociatedObjects ObjectName) (src d : ObjectName) :
    (ao.RemoveBySource src).destToSrc.lookup d =
      if d ∈ (ao.srcToDest.lookup src).getD ∅ then none else ao.destToSrc.lookup d := by
  unfold AssociatedObjects.RemoveBySource
  cases h : ao.srcToDest.lookup src with
  | none => simp
  | some set => simp [lookup_foldl_erase]

end Lookup

/-! ## Invariants of the states reachable from the empty index -/

section Invariants

variable {ObjectName : Type} [DecidableEq ObjectName]

/-- I1 as the specification words it: `destToSrc[d] = s` exactly when `d` is a
member of `srcToDest[s]`. -/
def Agreement (ao : AssociatedObjects ObjectName) : Prop :=
  ∀ d s, ao.destToSrc.lookup d = some s ↔
    ∃ set, ao.srcToDest.lookup s = some set ∧ d ∈ set

/-- I3: no source key is mapped to an empty set. -/
def NoEmptyEntries (ao : AssociatedObjects ObjectName) : Prop :=
  ∀ s set, ao.srcToDest.lookup s = some set → set.Nonempty

/-- The half of I1 that goes from the reverse map to the forward map. -/
def ReverseInForward (ao : AssociatedObjects ObjectName) : Prop :=
  ∀ d s, ao.destToSrc.lookup d = some s →
    ∃ set, ao.srcToDest.lookup s = some set ∧ d ∈ set

theorem runFrom_induction [HasNil ObjectName] (P : AssociatedObjects ObjectName → Prop)
    (step : ∀ ao c, P ao → P (Call.apply ao c)) :
    ∀ (calls : List (Call ObjectName)) (ao : AssociatedObjects ObjectName),
      P ao → P (runFrom ao calls) := by
  intro calls
  induction calls with
  | nil => intro ao h; exact h
  | cons c cs ih => intro ao h; exact ih (Call.apply ao c) (step ao c h)

theorem run_induction [HasNil ObjectName] (P : AssociatedObjects ObjectName → Prop)
    (base : P NewAssociatedObjects)
    (step : ∀ ao c, P ao → P (Call.apply ao c)) (calls : List (Call ObjectName)) :
    P (run calls) :=
  runFrom_induction P step calls NewAssociatedObjects base

theorem NoEmptyEntries_new : NoEmptyEntries (NewAssociatedObjects : AssociatedObjects ObjectName) := by
  intro s set h
  simp [NewAssociatedObjects, Finmap.lookup_empty] at h

theorem NoEmptyEntries_AddAssoc (ao : AssociatedObjects ObjectName) (src dst : ObjectName)
    (h : NoEmptyEntries ao) : NoEmptyEntries (ao.AddAssoc src dst) := by
  intro s set hs
  rw [srcToDest_AddAssoc] at hs
  by_cases e : s = src
  · rw [if_pos e] at hs
    cases hs
    exact Finset.insert_nonempty _ _
  · rw [if_neg e] at hs
    exact h s set hs

theorem NoEmptyEntries_RemoveByDest [HasNil ObjectName] (ao : AssociatedObjects ObjectName)
    (dst : ObjectName) (h : NoEmptyEntries ao) : NoEmptyEntries (ao.RemoveByDest dst) := by
  intro s set hs
  rcases RemoveByDest_cases ao dst with heq | ⟨src, hd, hn⟩
  · rw [heq] at hs
    exact h s set hs
  · by_cases e : s = src
    · cases hset : ao.srcToDest.lookup src with
      | none =>
        unfold AssociatedObjects.RemoveByDest at hs
        simp only [hd, hn, Bool.false_eq_true, if_false, hset] at hs
        exact h s set hs
      | some set0 =>
        rw [srcToDest_RemoveByDest ao dst src s set0 hd hn hset, if_pos e] at hs
        by_cases he : set0.erase dst = ∅
        · rw [if_pos he] at hs
          cases hs
        · rw [if_neg he] at hs
          cases hs
          exact Finset.nonempty_iff_ne_empty.mpr he
    · rw [srcToDest_RemoveByDest_of_ne ao dst src s hd hn e] at hs
      exact h s set hs

theorem NoEmptyEntries_RemoveBySource (ao : AssociatedObjects ObjectName) (src : ObjectName)
    (h : NoEmptyEntries ao) : NoEmptyEntries (ao.RemoveBySource src) := by
  intro s set hs
  rw [srcToDest_RemoveBySource] at hs
  by_cases e : s = src
  · rw [if_pos e] at hs
    cases hs
  · rw [if_neg e] at hs
    exact h s set hs

theorem NoEmptyEntries_run [HasNil ObjectName] (calls : List (Call ObjectName)) : NoEmptyEntries (run calls) := by
  refine run_induction NoEmptyEntries NoEmptyEntries_new ?_ calls
  intro ao c h
  cases c with
  | AddAssoc src dst => exact NoEmptyEntries_AddAssoc ao src dst h
  | RemoveByDest dst => exact NoEmptyEntries_RemoveByDest ao dst h
  | RemoveBySource src => exact NoEmptyEntries_RemoveBySource ao src h

theorem ReverseInForward_new :
    ReverseInForward (NewAssociatedObjects : AssociatedObjects ObjectName) := by
  intro d s h
  simp [NewAssociatedObjects, Finmap.lookup_empty] at h

theorem ReverseInForward_AddAssoc (ao : AssociatedObjects ObjectName) (src dst : ObjectName)
    (h : ReverseInForward ao) : ReverseInForward (ao.AddAssoc src dst) := by
  intro d s hd
  rw [destToSrc_AddAssoc] at hd
  rw [srcToDest_AddAssoc]
  by_cases e : d = dst
  · rw [if_pos e] at hd
    cases hd
    rw [if_pos rfl]
    exact ⟨_, rfl, by rw [e]; exact Finset.mem_insert_self _ _⟩
  · rw [if_neg e] at hd
    obtain ⟨set, hset, hmem⟩ := h d s hd
    by_cases es : s = src
    · subst es
      rw [if_pos rfl, hset]
      exact ⟨_, rfl, Finset.mem_insert_of_mem hmem⟩
    · rw [if_neg es]
      exact ⟨set, hset, hmem⟩

theorem ReverseInForward_RemoveByDest [HasNil ObjectName] (ao : AssociatedObjects ObjectName)
    (dst : ObjectName) (h : ReverseInForward ao) : ReverseInForward (ao.RemoveByDest dst) := by
  intro d s hd
  rcases RemoveByDest_cases ao dst with heq | ⟨src, hdst, hn⟩
  · rw [heq] at hd ⊢
    exact h d s hd
  · rw [destToSrc_RemoveByDest ao dst src d hdst hn] at hd
    by_cases e : d = dst
    · rw [if_pos e] at hd
      cases hd
    · rw [if_neg e] at hd
      obtain ⟨set, hset, hmem⟩ := h d s hd
      by_cases es : s = src
      · subst es
        have hmem' : d ∈ set.erase dst := Finset.mem_erase.mpr ⟨e, hmem⟩
        have hne : set.erase dst ≠ ∅ := Finset.ne_empty_of_mem hmem'
        rw [srcToDest_RemoveByDest ao dst s s set hdst hn hset, if_pos rfl, if_neg hne]
        exact ⟨_, rfl, hmem'⟩
      · rw [srcToDest_RemoveByDest_of_ne ao dst src s hdst hn es]
        exact ⟨set, hset, hmem⟩

theorem ReverseInForward_RemoveBySource (ao : AssociatedObjects ObjectName) (src : ObjectName)
    (h : ReverseInForward ao) : ReverseInForward (ao.RemoveBySource src) := by
  intro d s hd
  rw [destToSrc_RemoveBySource] at hd
  by_cases e : d ∈ (ao.srcToDest.lookup src).getD ∅
  · rw [if_pos e] at hd
    cases hd
  · rw [if_neg e] at hd
    obtain ⟨set, hset, hmem⟩ := h d s hd
    have es : s ≠ src := by
      intro es
      subst es
      rw [hset] at e
      exact e hmem
    rw [srcToDest_RemoveBySource, if_neg es]
    exact ⟨set, hset, hmem⟩

theorem ReverseInForward_run [HasNil ObjectName] (calls : List (Call ObjectName)) :
    ReverseInForward (run calls) := by
  refine run_induction ReverseInForward ReverseInForward_new ?_ calls
  intro ao c h
  cases c with
  | AddAssoc src dst => exact ReverseInForward_AddAssoc ao src dst h
  | RemoveByDest dst => exact ReverseInForward_RemoveByDest ao dst h
  | RemoveBySource src => exact ReverseInForward_RemoveBySource ao src h

end Invariants

/-! ## Further facts used by the claims -/

section Facts

variable {ObjectName : Type} [DecidableEq ObjectName]

theorem AssociatedObjects.ext_lookup (a b : AssociatedObjects ObjectName)
    (h1 : ∀ s, a.srcToDest.lookup s = b.srcToDest.lookup s)
    (h2 : ∀ d, a.destToSrc.lookup d = b.destToSrc.lookup d) : a = b := by
  cases a
  cases b
  simp only [AssociatedObjects.mk.injEq]
  exact ⟨Finmap.ext_lookup h1, Finmap.ext_lookup h2⟩

theorem mem_Sources (ao : AssociatedObjects ObjectName) (s : ObjectName) :
    s ∈ ao.Sources ↔ ∃ set, ao.srcToDest.lookup s = some set := by
  unfold AssociatedObjects.Sources
  rw [Finset.mem_val, Finmap.mem_keys, Finmap.mem_iff]

theorem RemoveBySource_of_none (ao : AssociatedObjects ObjectName) (src : ObjectName)
    (h : ao.srcToDest.lookup src = none) : ao.RemoveBySource src = ao := by
  apply AssociatedObjects.ext_lookup
  · intro s
    rw [srcToDest_RemoveBySource]
    by_cases e : s = src
    · rw [if_pos e, e, h]
    · rw [if_neg e]
  · intro d
    rw [destToSrc_RemoveBySource, h]
    simp

theorem srcToDest_none_RemoveByDest [HasNil ObjectName] (ao : AssociatedObjects ObjectName)
    (dst s : ObjectName) (h : ao.srcToDest.lookup s = none) :
    (ao.RemoveByDest dst).srcToDest.lookup s = none := by
  rcases RemoveByDest_cases ao dst with heq | ⟨src, hd, hn⟩
  · rw [heq, h]
  · by_cases e : s = src
    · subst e
      unfold AssociatedObjects.RemoveByDest
      simp only [hd, hn, Bool.false_eq_true, if_false, h]
    · rw [srcToDest_RemoveByDest_of_ne ao dst src s hd hn e, h]

theorem destToSrc_none_of_not_added [HasNil ObjectName] (d : ObjectName) (calls : List (Call ObjectName))
    (h : ∀ s, Call.AddAssoc s d ∉ calls) : (run calls).destToSrc.lookup d = none := by
  have key : ∀ (cs : List (Call ObjectName)) (ao : AssociatedObjects ObjectName),
      ao.destToSrc.lookup d = none → (∀ s, Call.AddAssoc s d ∉ cs) →
      (runFrom ao cs).destToSrc.lookup d = none := by
    intro cs
    induction cs with
    | nil => intro ao h0 _; exact h0
    | cons c cs ih =>
      intro ao h0 hc
      refine ih (Call.apply ao c) ?_ (fun s hs => hc s (List.mem_cons_of_mem _ hs))
      cases c with
      | AddAssoc src dst =>
        have hne : d ≠ dst := by
          intro e
          subst e
          exact hc src (List.mem_cons_self _ _)
        show (ao.AddAssoc src dst).destToSrc.lookup d = none
        rw [destToSrc_AddAssoc, if_neg hne, h0]
      | RemoveByDest dst =>
        exact destToSrc_none_RemoveByDest ao dst d h0
      | RemoveBySource src =>
        show (ao.RemoveBySource src).destToSrc.lookup d = none
        rw [destToSrc_RemoveBySource, h0, ite_self]
  exact key calls NewAssociatedObjects (Finmap.lookup_empty d) h

theorem srcToDest_none_of_not_added [HasNil ObjectName] (s : ObjectName) (calls : List (Call ObjectName))
    (h : ∀ d, Call.AddAssoc s d ∉ calls) : (run calls).srcToDest.lookup s = none := by
  have key : ∀ (cs : List (Call ObjectName)) (ao : AssociatedObjects ObjectName),
      ao.srcToDest.lookup s = none → (∀ d, Call.AddAssoc s d ∉ cs) →
      (runFrom ao cs).srcToDest.lookup s = none := by
    intro cs
    induction cs with
    | nil => intro ao h0 _; exact h0
    | cons c cs ih =>
      intro ao h0 hc
      refine ih (Call.apply ao c) ?_ (fun d hd => hc d (List.mem_cons_of_mem _ hd))
      cases c with
      | AddAssoc src dst =>
        have hne : s ≠ src := by
          intro e
          subst e
          exact hc dst (List.mem_cons_self _ _)
        show (ao.AddAssoc src dst).srcToDest.lookup s = none
        rw [srcToDest_AddAssoc, if_neg hne, h0]
      | RemoveByDest dst => exact srcToDest_none_RemoveByDest ao dst s h0
      | RemoveBySource src =>
        show (ao.RemoveBySource src).srcToDest.lookup s = none
        rw [srcToDest_RemoveBySource, h0, ite_self]
  exact key calls NewAssociatedObjects (Finmap.lookup_empty s) h

end Facts

/-! ## The claims -/

section Claims

variable {ObjectName : Type} [DecidableEq ObjectName]

/-- C1: the agreement invariant I1 does not survive a reassignment. After
`AddAssoc("src/a","dst/1")` and `AddAssoc("src/b","dst/1")` on the empty index
the forward map still holds `dst/1` under `src/a` while the reverse map sends
`dst/1` to `src/b`, so I1 is false in that reachable state. -/
theorem C1_agreement_broken_by_reassignment :
    (run [Call.AddAssoc "src/a" "dst/1", Call.AddAssoc "src/b" "dst/1"]).srcToDest.lookup "src/a"
        = some {"dst/1"} ∧
    (run [Call.AddAssoc "src/a" "dst/1", Call.AddAssoc "src/b" "dst/1"]).destToSrc.lookup "dst/1"
        = some "src/b" ∧
    ¬ Agreement (run [Call.AddAssoc "src/a" "dst/1", Call.AddAssoc "src/b" "dst/1"]) := by
  refine ⟨by decide, by decide, ?_⟩
  intro h
  have h1 := (h "dst/1" "src/a").mpr ⟨{"dst/1"}, by decide, by decide⟩
  revert h1
  decide

/-- C2: the single-owner property fails after a reassignment. After
`AddAssoc("src/a","dst/1")` and `AddAssoc("src/b","dst/1")` on the empty index
`dst/1` is returned by `DestinationsAsArray` for both `src/a` and `src/b`. -/
theorem C2_two_owners_after_reassignment :
    "dst/1" ∈ (run [Call.AddAssoc "src/a" "dst/1", Call.AddAssoc "src/b" "dst/1"]).DestinationsAsArray
        "src/a" ∧
    "dst/1" ∈ (run [Call.AddAssoc "src/a" "dst/1", Call.AddAssoc "src/b" "dst/1"]).DestinationsAsArray
        "src/b" ∧
    "src/a" ≠ "src/b" := by
  decide

/-- C3: reassignment leaves the old source untouched. Starting from the empty
index, after `AddAssoc("src/a","dst/1")` followed by `AddAssoc("src/b","dst/1")`
the destination is in `DestinationsAsArray("src/b")` but also still in
`DestinationsAsArray("src/a")`, `DestinationsCount("src/a")` is 1 and `src/a` is
still in `Sources()`. -/
theorem C3_old_source_keeps_destination :
    "dst/1" ∈ ((NewAssociatedObjects.AddAssoc "src/a" "dst/1").AddAssoc "src/b" "dst/1").DestinationsAsArray
        "src/b" ∧
    "dst/1" ∈ ((NewAssociatedObjects.AddAssoc "src/a" "dst/1").AddAssoc "src/b" "dst/1").DestinationsAsArray
        "src/a" ∧
    ((NewAssociatedObjects.AddAssoc "src/a" "dst/1").AddAssoc "src/b" "dst/1").DestinationsCount
        "src/a" = 1 ∧
    "src/a" ∈ ((NewAssociatedObjects.AddAssoc "src/a" "dst/1").AddAssoc "src/b" "dst/1").Sources := by
  decide

/-- C4: invariant I3. In every state reached from the empty index by a finite
sequence of `AddAssoc`, `RemoveByDest` and `RemoveBySource` calls, every source
key present in `srcToDest` is mapped to a non-empty destination set. -/
theorem C4_no_empty_entries [HasNil ObjectName] (calls : List (Call ObjectName)) (s : ObjectName)
    (set : ObjectNameSet ObjectName) (h : (run calls).srcToDest.lookup s = some set) :
    set.Nonempty ∧ 1 ≤ (run calls).DestinationsCount s := by
  have hne := NoEmptyEntries_run calls s set h
  refine ⟨hne, ?_⟩
  unfold AssociatedObjects.DestinationsCount
  rw [h]
  exact Finset.card_pos.mpr hne

/-- Witness for C4 after an add, a second add and the removal of the first
destination. -/
theorem C4_no_empty_entries_witness :
    (run [Call.AddAssoc "src/a" "dst/1", Call.AddAssoc "src/a" "dst/2",
        Call.RemoveByDest "dst/1"]).srcToDest.lookup "src/a" = some {"dst/2"} ∧
    (({"dst/2"} : ObjectNameSet String).Nonempty ∧
      1 ≤ (run [Call.AddAssoc "src/a" "dst/1", Call.AddAssoc "src/a" "dst/2",
        Call.RemoveByDest "dst/1"]).DestinationsCount "src/a") :=
  ⟨by decide,
    C4_no_empty_entries
      [Call.AddAssoc "src/a" "dst/1", Call.AddAssoc "src/a" "dst/2", Call.RemoveByDest "dst/1"]
      "src/a" {"dst/2"} (by decide)⟩

/-- C5: source removal cascades. In every state reached from the empty index
and for every source `s`, after `RemoveBySource(s)` every destination that was
in `srcToDest[s]` is absent from `destToSrc`, no destination at all is mapped to
`s` in `destToSrc`, `s` is absent from `Sources()` and
`DestinationsCount(s) = 0`. -/
theorem C5_source_removal_cascades [HasNil ObjectName] (calls : List (Call ObjectName)) (s : ObjectName) :
    (∀ set, (run calls).srcToDest.lookup s = some set →
      ∀ d, d ∈ set → ((run calls).RemoveBySource s).destToSrc.lookup d = none) ∧
    (∀ d, ((run calls).RemoveBySource s).destToSrc.lookup d ≠ some s) ∧
    s ∉ ((run calls).RemoveBySource s).Sources ∧
    ((run calls).RemoveBySource s).DestinationsCount s = 0 := by
  have hs : ((run calls).RemoveBySource s).srcToDest.lookup s = none := by
    rw [srcToDest_RemoveBySource, if_pos rfl]
  refine ⟨?_, ?_, ?_, ?_⟩
  · intro set hset d hd
    rw [destToSrc_RemoveBySource, hset]
    exact if_pos hd
  · intro d hd
    rw [destToSrc_RemoveBySource] at hd
    by_cases e : d ∈ ((run calls).srcToDest.lookup s).getD ∅
    · rw [if_pos e] at hd
      cases hd
    · rw [if_neg e] at hd
      obtain ⟨set, hset, hmem⟩ := ReverseInForward_run calls d s hd
      rw [hset] at e
      exact e hmem
  · rw [mem_Sources, hs]
    rintro ⟨set, hset⟩
    cases hset
  · unfold AssociatedObjects.DestinationsCount
    rw [hs]

/-- Witness for C5: removing `src/a` after it received two destinations. -/
theorem C5_source_removal_cascades_witness :
    ((run [Call.AddAssoc "src/a" "dst/1", Call.AddAssoc "src/a" "dst/2"]).RemoveBySource
        "src/a").destToSrc.lookup "dst/1" = none ∧
    "src/a" ∉ ((run [Call.AddAssoc "src/a" "dst/1", Call.AddAssoc "src/a" "dst/2"]).RemoveBySource
        "src/a").Sources :=
  ⟨(C5_source_removal_cascades [Call.AddAssoc "src/a" "dst/1", Call.AddAssoc "src/a" "dst/2"]
      "src/a").1 {"dst/2", "dst/1"} rfl "dst/1" (by decide),
    (C5_source_removal_cascades [Call.AddAssoc "src/a" "dst/1", Call.AddAssoc "src/a" "dst/2"]
      "src/a").2.2.1⟩

/-- C6, as stated, fails when the stored source is nil. After
`AddAssoc(nil, "dst/1")` on the empty index `destToSrc["dst/1"]` holds nil; the
test `src != nil` of `RemoveByDest("dst/1")` then fails, the call changes
nothing, and `dst/1` is still a key of `destToSrc` and a member of
`srcToDest[nil]`. -/
theorem C6_nil_source_is_not_removed :
    (run [Call.AddAssoc (none : Option String) (some "dst/1")]).destToSrc.lookup (some "dst/1")
        = some none ∧
    ((run [Call.AddAssoc (none : Option String) (some "dst/1")]).RemoveByDest
        (some "dst/1")).destToSrc.lookup (some "dst/1") = some none ∧
    some "dst/1" ∈ ((run [Call.AddAssoc (none : Option String) (some "dst/1")]).RemoveByDest
        (some "dst/1")).DestinationsAsArray none := by
  decide

/-- C6, amended: postcondition of `RemoveByDest` for a stored source that is
not nil. In every state reached from the empty index and for every destination
`d` with `destToSrc[d] = s` and `s` not nil, after `RemoveByDest(d)`: `d` is
absent from `destToSrc` and from `srcToDest[s]`; the key `s` is dropped from
`srcToDest` exactly when `d` was the only member of its set; every other member
of `srcToDest[s]` is kept; `srcToDest` is unchanged at every source other than
`s` and `destToSrc` is unchanged at every destination other than `d`. -/
theorem C6_RemoveByDest_postcondition [HasNil ObjectName] (calls : List (Call ObjectName))
    (d s : ObjectName) (h : (run calls).destToSrc.lookup d = some s)
    (hn : HasNil.isNil s = false) :
    ((run calls).RemoveByDest d).destToSrc.lookup d = none ∧
    (∀ set, ((run calls).RemoveByDest d).srcToDest.lookup s = some set → d ∉ set) ∧
    d ∉ ((run calls).RemoveByDest d).DestinationsAsArray s ∧
    (((run calls).RemoveByDest d).srcToDest.lookup s = none ↔
      (run calls).srcToDest.lookup s = some {d}) ∧
    (∀ set d1, (run calls).srcToDest.lookup s = some set → d1 ∈ set → d1 ≠ d →
      ∃ set1, ((run calls).RemoveByDest d).srcToDest.lookup s = some set1 ∧ d1 ∈ set1) ∧
    (∀ s1, s1 ≠ s →
      ((run calls).RemoveByDest d).srcToDest.lookup s1 = (run calls).srcToDest.lookup s1) ∧
    (∀ d1, d1 ≠ d →
      ((run calls).RemoveByDest d).destToSrc.lookup d1 = (run calls).destToSrc.lookup d1) := by
  obtain ⟨set0, hset0, hmem0⟩ := ReverseInForward_run calls d s h
  have hlook := srcToDest_RemoveByDest (run calls) d s s set0 h hn hset0
  rw [if_pos rfl] at hlook
  have habs : ∀ set, ((run calls).RemoveByDest d).srcToDest.lookup s = some set → d ∉ set := by
    intro set hset
    rw [hlook] at hset
    by_cases he : set0.erase d = ∅
    · rw [if_pos he] at hset
      cases hset
    · rw [if_neg he] at hset
      cases hset
      exact Finset.not_mem_erase d set0
  refine ⟨?_, habs, ?_, ?_, ?_, ?_, ?_⟩
  · rw [destToSrc_RemoveByDest (run calls) d s d h hn, if_pos rfl]
  · unfold AssociatedObjects.DestinationsAsArray
    cases hafter : ((run calls).RemoveByDest d).srcToDest.lookup s with
    | none => exact Multiset.not_mem_zero d
    | some set => exact habs set hafter
  · rw [hlook, hset0]
    constructor
    · intro hnone
      by_cases he : set0.erase d = ∅
      · have hsub : set0 ⊆ {d} := Finset.erase_eq_empty_iff set0 d |>.mp he |>.elim
          (fun h0 => by rw [h0]; exact Finset.empty_subset _) (fun h1 => by rw [h1])
        have heq : set0 = {d} :=
          Finset.Subset.antisymm hsub (Finset.singleton_subset_iff.mpr hmem0)
        rw [heq]
      · rw [if_neg he] at hnone
        cases hnone
    · intro hsingle
      cases hsingle
      rw [if_pos (Finset.erase_singleton d)]
  · intro set d1 hset hd1 hne
    rw [hset0] at hset
    cases hset
    have hmem1 : d1 ∈ set0.erase d := Finset.mem_erase.mpr ⟨hne, hd1⟩
    rw [hlook, if_neg (Finset.ne_empty_of_mem hmem1)]
    exact ⟨_, rfl, hmem1⟩
  · intro s1 hs1
    exact srcToDest_RemoveByDest_of_ne (run calls) d s s1 h hn hs1
  · intro d1 hd1
    rw [destToSrc_RemoveByDest (run calls) d s d1 h hn, if_neg hd1]

/-- Witness for the amended C6, over names that may be nil: removing `dst/1`
from the non-nil source `src/a` that owns `dst/1` and `dst/2`. -/
theorem C6_RemoveByDest_postcondition_witness :
    (run [Call.AddAssoc (some "src/a") (some "dst/1"),
        Call.AddAssoc (some "src/a") (some "dst/2")]).destToSrc.lookup (some "dst/1")
        = some (some "src/a") ∧
    HasNil.isNil (some "src/a") = false ∧
    ((run [Call.AddAssoc (some "src/a") (some "dst/1"),
        Call.AddAssoc (some "src/a") (some "dst/2")]).RemoveByDest
        (some "dst/1")).destToSrc.lookup (some "dst/1") = none :=
  ⟨by decide, rfl,
    (C6_RemoveByDest_postcondition
      [Call.AddAssoc (some "src/a") (some "dst/1"), Call.AddAssoc (some "src/a") (some "dst/2")]
      (some "dst/1") (some "src/a") (by decide) rfl).1⟩

/-- C7: idempotent add. For every state, source `s` and destination `d`,
applying `AddAssoc(s, d)` twice in a row yields exactly the same state as
applying it once, hence the same `DestinationsAsArray`, `DestinationsCount` and
`Sources` results. -/
theorem C7_AddAssoc_idempotent (ao : AssociatedObjects ObjectName) (s d : ObjectName) :
    (ao.AddAssoc s d).AddAssoc s d = ao.AddAssoc s d ∧
    (∀ s1, ((ao.AddAssoc s d).AddAssoc s d).DestinationsAsArray s1 =
      (ao.AddAssoc s d).DestinationsAsArray s1) ∧
    (∀ s1, ((ao.AddAssoc s d).AddAssoc s d).DestinationsCount s1 =
      (ao.AddAssoc s d).DestinationsCount s1) ∧
    ((ao.AddAssoc s d).AddAssoc s d).Sources = (ao.AddAssoc s d).Sources := by
  have heq : (ao.AddAssoc s d).AddAssoc s d = ao.AddAssoc s d := by
    apply AssociatedObjects.ext_lookup
    · intro s1
      rw [srcToDest_AddAssoc (ao.AddAssoc s d)]
      by_cases e : s1 = s
      · subst e
        rw [if_pos rfl, srcToDest_AddAssoc ao, if_pos rfl, Option.getD_some, Finset.insert_idem]
      · rw [if_neg e]
    · intro d1
      rw [destToSrc_AddAssoc (ao.AddAssoc s d)]
      by_cases e : d1 = d
      · subst e
        rw [if_pos rfl, destToSrc_AddAssoc ao, if_pos rfl]
      · rw [if_neg e]
  refine ⟨heq, ?_, ?_, ?_⟩
  · intro s1
    rw [heq]
  · intro s1
    rw [heq]
  · rw [heq]

/-- C8: no-op removal. In every state reached from the empty index,
`RemoveByDest(d)` leaves both maps unchanged when `d` has no entry in
`destToSrc`, in particular when `d` was never passed to `AddAssoc` as
destination; `RemoveBySource(s)` leaves both maps unchanged when `s` has no entry
in `srcToDest`, in particular when `s` was never passed to `AddAssoc` as
source. -/
theorem C8_noop_removal [HasNil ObjectName] (calls : List (Call ObjectName)) (d s : ObjectName) :
    ((run calls).destToSrc.lookup d = none → (run calls).RemoveByDest d = run calls) ∧
    ((run calls).srcToDest.lookup s = none → (run calls).RemoveBySource s = run calls) ∧
    ((∀ s1, Call.AddAssoc s1 d ∉ calls) → (run calls).RemoveByDest d = run calls) ∧
    ((∀ d1, Call.AddAssoc s d1 ∉ calls) → (run calls).RemoveBySource s = run calls) :=
  ⟨RemoveByDest_of_none (run calls) d,
    RemoveBySource_of_none (run calls) s,
    fun h => RemoveByDest_of_none (run calls) d (destToSrc_none_of_not_added d calls h),
    fun h => RemoveBySource_of_none (run calls) s (srcToDest_none_of_not_added s calls h)⟩

/-- Witness for C8: removing an unknown destination and an unknown source from
an index that holds one association. -/
theorem C8_noop_removal_witness :
    (run [Call.AddAssoc "src/a" "dst/1"]).RemoveByDest "dst/9" = run [Call.AddAssoc "src/a" "dst/1"] ∧
    (run [Call.AddAssoc "src/a" "dst/1"]).RemoveBySource "src/9" =
      run [Call.AddAssoc "src/a" "dst/1"] :=
  ⟨(C8_noop_removal [Call.AddAssoc "src/a" "dst/1"] "dst/9" "src/9").1 (by decide),
    (C8_noop_removal [Call.AddAssoc "src/a" "dst/1"] "dst/9" "src/9").2.1 (by decide)⟩

/-- C9: `Sources()` is exact. In every state reached from the empty index a
source `s` occurs in the result of `Sources()` if and only if
`DestinationsCount(s) >= 1`, and no source occurs in the result more than
once. -/
theorem C9_Sources_exact [HasNil ObjectName] (calls : List (Call ObjectName)) (s : ObjectName) :
    (s ∈ (run calls).Sources ↔ 1 ≤ (run calls).DestinationsCount s) ∧
    (run calls).Sources.count s ≤ 1 ∧
    (run calls).Sources.Nodup := by
  have hnodup : (run calls).Sources.Nodup := (run calls).srcToDest.keys.nodup
  refine ⟨?_, Multiset.nodup_iff_count_le_one.mp hnodup s, hnodup⟩
  rw [mem_Sources]
  unfold AssociatedObjects.DestinationsCount
  constructor
  · rintro ⟨set, hset⟩
    rw [hset]
    exact Finset.card_pos.mpr (NoEmptyEntries_run calls s set hset)
  · intro hcount
    cases hl : (run calls).srcToDest.lookup s with
    | none =>
      rw [hl] at hcount
      exact absurd hcount (Nat.not_succ_le_zero 0)
    | some set => exact ⟨set, rfl⟩

/-- C10: for every state and every source `s`, `DestinationsCount(s)` equals
the length of `DestinationsAsArray(s)`. -/
theorem C10_count_eq_length (ao : AssociatedObjects ObjectName) (s : ObjectName) :
    ao.DestinationsCount s = Multiset.card (ao.DestinationsAsArray s) := by
  unfold AssociatedObjects.DestinationsCount AssociatedObjects.DestinationsAsArray
  cases ao.srcToDest.lookup s with
  | none => rfl
  | some set => rfl

/-- C11: unknown source. For every state and every source `s` that has no
entry in `srcToDest`, `DestinationsAsArray(s)` is the empty sequence and
`DestinationsCount(s) = 0`; this covers every source on the newly constructed
index and, in a state reached from it, every source never passed to `AddAssoc`.
Both queries only read the state: they are functions of it and return no new
state. -/
theorem C11_unknown_source [HasNil ObjectName] (ao : AssociatedObjects ObjectName) (calls : List (Call ObjectName))
    (s : ObjectName) :
    (ao.srcToDest.lookup s = none →
      ao.DestinationsAsArray s = 0 ∧ Multiset.card (ao.DestinationsAsArray s) = 0 ∧
        ao.DestinationsCount s = 0) ∧
    ((NewAssociatedObjects : AssociatedObjects ObjectName).DestinationsAsArray s = 0 ∧
      (NewAssociatedObjects : AssociatedObjects ObjectName).DestinationsCount s = 0) ∧
    ((∀ d, Call.AddAssoc s d ∉ calls) →
      (run calls).DestinationsAsArray s = 0 ∧ (run calls).DestinationsCount s = 0) := by
  have key : ∀ a : AssociatedObjects ObjectName, a.srcToDest.lookup s = none →
      a.DestinationsAsArray s = 0 ∧ a.DestinationsCount s = 0 := by
    intro a h
    unfold AssociatedObjects.DestinationsAsArray AssociatedObjects.DestinationsCount
    rw [h]
    exact ⟨rfl, rfl⟩
  refine ⟨?_, key _ (Finmap.lookup_empty s), ?_⟩
  · intro h
    refine ⟨(key ao h).1, ?_, (key ao h).2⟩
    rw [(key ao h).1]
    exact Multiset.card_zero
  · intro h
    exact key _ (srcToDest_none_of_not_added s calls h)

/-- Witness for C11: the source `src/b` on an index that only knows `src/a`. -/
theorem C11_unknown_source_witness :
    (run [Call.AddAssoc "src/a" "dst/1"]).srcToDest.lookup "src/b" = none ∧
    (run [Call.AddAssoc "src/a" "dst/1"]).DestinationsAsArray "src/b" = 0 ∧
    (run [Call.AddAssoc "src/a" "dst/1"]).DestinationsCount "src/b" = 0 :=
  ⟨by decide,
    ((C11_unknown_source (run [Call.AddAssoc "src/a" "dst/1"]) [] "src/b").1 (by decide)).1,
    ((C11_unknown_source (run [Call.AddAssoc "src/a" "dst/1"]) [] "src/b").1 (by decide)).2.2⟩

/-- C12: the concrete scenario. Starting from `NewAssociatedObjects()`, after
`AddAssoc("src/a","dst/1")`, `AddAssoc("src/a","dst/2")`,
`AddAssoc("src/b","dst/3")`: `DestinationsCount("src/a") = 2`,
`DestinationsAsArray("src/a")` contains exactly `dst/1` and `dst/2`, `Sources()`
contains exactly `src/a` and `src/b`. After `RemoveByDest("dst/1")`:
`DestinationsCount("src/a") = 1` and `DestinationsAsArray("src/a")` contains
exactly `dst/2`. After `RemoveBySource("src/a")`: `Sources()` contains only
`src/b` and `DestinationsCount("src/a") = 0`. -/
theorem C12_concrete_scenario :
    (run [Call.AddAssoc "src/a" "dst/1", Call.AddAssoc "src/a" "dst/2",
        Call.AddAssoc "src/b" "dst/3"]).DestinationsCount "src/a" = 2 ∧
    (∀ d, d ∈ (run [Call.AddAssoc "src/a" "dst/1", Call.AddAssoc "src/a" "dst/2",
        Call.AddAssoc "src/b" "dst/3"]).DestinationsAsArray "src/a" ↔ d = "dst/1" ∨ d = "dst/2") ∧
    (∀ s, s ∈ (run [Call.AddAssoc "src/a" "dst/1", Call.AddAssoc "src/a" "dst/2",
        Call.AddAssoc "src/b" "dst/3"]).Sources ↔ s = "src/a" ∨ s = "src/b") ∧
    (run [Call.AddAssoc "src/a" "dst/1", Call.AddAssoc "src/a" "dst/2",
        Call.AddAssoc "src/b" "dst/3"]).Sources.Nodup ∧
    (run [Call.AddAssoc "src/a" "dst/1", Call.AddAssoc "src/a" "dst/2",
        Call.AddAssoc "src/b" "dst/3", Call.RemoveByDest "dst/1"]).DestinationsCount "src/a" = 1 ∧
    (run [Call.AddAssoc "src/a" "dst/1", Call.AddAssoc "src/a" "dst/2",
        Call.AddAssoc "src/b" "dst/3", Call.RemoveByDest "dst/1"]).DestinationsAsArray "src/a"
      = {"dst/2"} ∧
    (run [Call.AddAssoc "src/a" "dst/1", Call.AddAssoc "src/a" "dst/2",
        Call.AddAssoc "src/b" "dst/3", Call.RemoveByDest "dst/1",
        Call.RemoveBySource "src/a"]).Sources = {"src/b"} ∧
    (run [Call.AddAssoc "src/a" "dst/1", Call.AddAssoc "src/a" "dst/2",
        Call.AddAssoc "src/b" "dst/3", Call.RemoveByDest "dst/1",
        Call.RemoveBySource "src/a"]).DestinationsCount "src/a" = 0 := by
  have hdest : (run [Call.AddAssoc "src/a" "dst/1", Call.AddAssoc "src/a" "dst/2",
      Call.AddAssoc "src/b" "dst/3"]).DestinationsAsArray "src/a" = {"dst/2", "dst/1"} := rfl
  have hsrc : (run [Call.AddAssoc "src/a" "dst/1", Call.AddAssoc "src/a" "dst/2",
      Call.AddAssoc "src/b" "dst/3"]).Sources = {"src/b", "src/a"} := rfl
  refine ⟨by decide, ?_, ?_, ?_, by decide, by decide, by decide, by decide⟩
  · intro d
    rw [hdest]
    simp only [Multiset.insert_eq_cons, Multiset.mem_cons, Multiset.mem_singleton]
    exact Or.comm
  · intro s
    rw [hsrc]
    simp only [Multiset.insert_eq_cons, Multiset.mem_cons, Multiset.mem_singleton]
    exact Or.comm
  · rw [hsrc]
    decide

/-- C14: postcondition and frame of `AddAssoc`. For every state, source `s`
and destination `d`, after `AddAssoc(s, d)`: `destToSrc[d] = s`; `srcToDest[s]`
is its previous content (empty if `s` was absent) with `d` inserted, so
`DestinationsCount(s)` grows by one exactly when `d` was not already a member;
`destToSrc` is unchanged at every destination other than `d`; `srcToDest` is
unchanged at every source other than `s`, whether or not it is the previous
source of `d`. -/
theorem C14_AddAssoc_postcondition (ao : AssociatedObjects ObjectName) (s d : ObjectName) :
    (ao.AddAssoc s d).destToSrc.lookup d = some s ∧
    (ao.AddAssoc s d).srcToDest.lookup s =
      some (insert d ((ao.srcToDest.lookup s).getD ∅)) ∧
    (∀ d1, d1 ∈ (ao.AddAssoc s d).DestinationsAsArray s ↔
      d1 = d ∨ d1 ∈ ao.DestinationsAsArray s) ∧
    (ao.AddAssoc s d).DestinationsCount s =
      ao.DestinationsCount s + (if d ∈ ao.DestinationsAsArray s then 0 else 1) ∧
    (∀ d1, d1 ≠ d → (ao.AddAssoc s d).destToSrc.lookup d1 = ao.destToSrc.lookup d1) ∧
    (∀ s1, s1 ≠ s → (ao.AddAssoc s d).srcToDest.lookup s1 = ao.srcToDest.lookup s1) := by
  have hs : (ao.AddAssoc s d).srcToDest.lookup s =
      some (insert d ((ao.srcToDest.lookup s).getD ∅)) := by
    rw [srcToDest_AddAssoc, if_pos rfl]
  refine ⟨?_, hs, ?_, ?_, ?_, ?_⟩
  · rw [destToSrc_AddAssoc, if_pos rfl]
  · intro d1
    unfold AssociatedObjects.DestinationsAsArray ObjectNameSet.AsArray
    rw [hs]
    cases ao.srcToDest.lookup s with
    | none => simp
    | some set => simp
  · unfold AssociatedObjects.DestinationsCount AssociatedObjects.DestinationsAsArray
      ObjectNameSet.AsArray
    rw [hs]
    cases ao.srcToDest.lookup s with
    | none => simp
    | some set =>
      by_cases hmem : d ∈ set
      · simp [hmem]
      · simp [hmem]
  · intro d1 hd1
    rw [destToSrc_AddAssoc, if_neg hd1]
  · intro s1 hs1
    rw [srcToDest_AddAssoc, if_neg hs1]

/-- C15: `RemoveBySource` can remove an association owned by another source.
After `AddAssoc("src/a","dst/1")` and `AddAssoc("src/b","dst/1")` on the empty
index `destToSrc["dst/1"]` is `src/b`, yet `RemoveBySource("src/a")` deletes that
entry, while `dst/1` stays in the set of `src/b`. -/
theorem C15_RemoveBySource_deletes_foreign_entry :
    (run [Call.AddAssoc "src/a" "dst/1", Call.AddAssoc "src/b" "dst/1"]).destToSrc.lookup "dst/1"
        = some "src/b" ∧
    "src/b" ≠ "src/a" ∧
    ((run [Call.AddAssoc "src/a" "dst/1", Call.AddAssoc "src/b" "dst/1"]).RemoveBySource
        "src/a").destToSrc.lookup "dst/1" = none ∧
    "dst/1" ∈ ((run [Call.AddAssoc "src/a" "dst/1", Call.AddAssoc "src/b" "dst/1"]).RemoveBySource
        "src/a").DestinationsAsArray "src/b" := by
  decide

/-- C16: reverse entries are never dangling. In every state reached from the
empty index by a finite sequence of `AddAssoc`, `RemoveByDest` and
`RemoveBySource` calls, for every destination `d` with `destToSrc[d] = s` the
source `s` is a key of `srcToDest` and `d` is a member of `srcToDest[s]`, so `s`
occurs in `Sources()` and `d` in `DestinationsAsArray(s)`. -/
theorem C16_reverse_never_dangling [HasNil ObjectName] (calls : List (Call ObjectName)) (d s : ObjectName)
    (h : (run calls).destToSrc.lookup d = some s) :
    (∃ set, (run calls).srcToDest.lookup s = some set ∧ d ∈ set) ∧
    s ∈ (run calls).Sources ∧
    d ∈ (run calls).DestinationsAsArray s := by
  obtain ⟨set, hset, hmem⟩ := ReverseInForward_run calls d s h
  refine ⟨⟨set, hset, hmem⟩, (mem_Sources _ s).mpr ⟨set, hset⟩, ?_⟩
  unfold AssociatedObjects.DestinationsAsArray ObjectNameSet.AsArray
  rw [hset]
  exact hmem

/-- Witness for C16: the reverse entry of `dst/1` after it was reassigned from
`src/a` to `src/b`. -/
theorem C16_reverse_never_dangling_witness :
    (run [Call.AddAssoc "src/a" "dst/1", Call.AddAssoc "src/b" "dst/1"]).destToSrc.lookup "dst/1"
        = some "src/b" ∧
    "src/b" ∈ (run [Call.AddAssoc "src/a" "dst/1", Call.AddAssoc "src/b" "dst/1"]).Sources ∧
    "dst/1" ∈ (run [Call.AddAssoc "src/a" "dst/1", Call.AddAssoc "src/b" "dst/1"]).DestinationsAsArray
        "src/b" :=
  ⟨by decide,
    (C16_reverse_never_dangling [Call.AddAssoc "src/a" "dst/1", Call.AddAssoc "src/b" "dst/1"]
      "dst/1" "src/b" (by decide)).2⟩

/-- C17, as stated, fails for the nil source. On the empty index `dst/1` has no
entry in `destToSrc` and `srcToDest[nil]` has no member, yet after
`AddAssoc(nil, "dst/1")` the call `RemoveByDest("dst/1")` reads a nil source and
does nothing: both entries stay and the state is not the original one. -/
theorem C17_nil_source_is_not_undone :
    (run ([] : List (Call (Option String)))).destToSrc.lookup (some "dst/1") = none ∧
    (run ([] : List (Call (Option String)))).srcToDest.lookup none = none ∧
    (((run ([] : List (Call (Option String)))).AddAssoc none (some "dst/1")).RemoveByDest
        (some "dst/1")).destToSrc.lookup (some "dst/1") = some none ∧
    (((run ([] : List (Call (Option String)))).AddAssoc none (some "dst/1")).RemoveByDest
        (some "dst/1")).srcToDest.lookup none = some {some "dst/1"} ∧
    ((run ([] : List (Call (Option String)))).AddAssoc none (some "dst/1")).RemoveByDest
        (some "dst/1") ≠ run ([] : List (Call (Option String))) := by
  refine ⟨by decide, by decide, by decide, by decide, ?_⟩
  intro heq
  have hlook := congrArg (fun ao => ao.destToSrc.lookup (some "dst/1")) heq
  revert hlook
  decide

/-- C17, amended: add/remove round trip for a source that is not nil. In every
state reached from the empty index, for every source `s` that is not nil and
every destination `d` that has no entry in `destToSrc` and is not a member of
`srcToDest[s]`, applying `AddAssoc(s, d)` and then `RemoveByDest(d)` yields
exactly the original state: both maps are what they were before. -/
theorem C17_add_remove_round_trip [HasNil ObjectName] (calls : List (Call ObjectName))
    (s d : ObjectName) (hn : HasNil.isNil s = false)
    (hd : (run calls).destToSrc.lookup d = none)
    (hs : ∀ set, (run calls).srcToDest.lookup s = some set → d ∉ set) :
    ((run calls).AddAssoc s d).RemoveByDest d = run calls := by
  have hrev : ((run calls).AddAssoc s d).destToSrc.lookup d = some s := by
    rw [destToSrc_AddAssoc, if_pos rfl]
  have hfwd : ((run calls).AddAssoc s d).srcToDest.lookup s =
      some (insert d (((run calls).srcToDest.lookup s).getD ∅)) := by
    rw [srcToDest_AddAssoc, if_pos rfl]
  apply AssociatedObjects.ext_lookup
  · intro s1
    rw [srcToDest_RemoveByDest _ d s s1 _ hrev hn hfwd]
    by_cases e : s1 = s
    · subst e
      rw [if_pos rfl]
      cases hl : (run calls).srcToDest.lookup s1 with
      | none =>
        rw [Option.getD_none, if_pos]
        exact Finset.erase_insert (Finset.not_mem_empty d)
      | some set =>
        have herase : (insert d set).erase d = set := Finset.erase_insert (hs set hl)
        have hne : set ≠ ∅ :=
          Finset.nonempty_iff_ne_empty.mp (NoEmptyEntries_run calls s1 set hl)
        rw [Option.getD_some, herase, if_neg hne]
    · rw [if_neg e, srcToDest_AddAssoc, if_neg e]
  · intro d1
    rw [destToSrc_RemoveByDest _ d s d1 hrev hn]
    by_cases e : d1 = d
    · rw [if_pos e, e, hd]
    · rw [if_neg e, destToSrc_AddAssoc, if_neg e]

/-- Witness for the amended C17, over names that may be nil: adding `dst/2`
under the non-nil source `src/a`, which already owns `dst/1`, and removing it
again. -/
theorem C17_add_remove_round_trip_witness :
    HasNil.isNil (some "src/a") = false ∧
    (run [Call.AddAssoc (some "src/a") (some "dst/1")]).destToSrc.lookup (some "dst/2") = none ∧
    (run [Call.AddAssoc (some "src/a") (some "dst/1")]).srcToDest.lookup (some "src/a")
        = some {some "dst/1"} ∧
    ((run [Call.AddAssoc (some "src/a") (some "dst/1")]).AddAssoc (some "src/a")
        (some "dst/2")).RemoveByDest (some "dst/2") =
      run [Call.AddAssoc (some "src/a") (some "dst/1")] :=
  ⟨rfl, by decide, by decide,
    C17_add_remove_round_trip [Call.AddAssoc (some "src/a") (some "dst/1")] (some "src/a")
      (some "dst/2") rfl (by decide)
      (fun set h => by
        have h2 : (run [Call.AddAssoc (some "src/a") (some "dst/1")]).srcToDest.lookup
            (some "src/a") = some {some "dst/1"} := by decide
        rw [h2] at h
        cases h
        decide)⟩

end Claims

end core
